import Mathlib

/-!
# Verification of the minisource/go-common resilient-call core

Shallow embedding of the retry/backoff engines (packages `httpclient` and
`grpcclient`), the TTL caches (`cache.MemoryCache`, the token-validation
caches of `http/middleware/service_auth_remote.go` and
`grpc/auth_interceptor.go`), the scope matcher, and the per-IP rate limiter
(`limiter/ip_limiter.go`).

Modelling conventions:
* Go `time.Duration` and `time.Time` values are `Int` (nanoseconds); the
  current time is passed explicitly where the code calls `time.Now()`.
* Go `float64` arithmetic is modelled with exact rationals `ℚ`; the Go
  conversion `time.Duration(f)` (truncation toward zero) is `truncFloat`.
* Go strings that are only compared for equality stay `String`; strings whose
  bytes are inspected (auth headers, scopes) are `List Char`.
* Go maps are association lists: an insert removes any previous binding, a
  lookup takes the unique binding.
* The retry `for` loops run `attempt = 0 .. maxRetries` (Go `int`); they are
  embedded with an explicit iteration budget `remaining`, maintained as
  `remaining = (maxRetries + 1 - attempt).toNat`, so the loop guard
  `attempt <= maxRetries` is exactly `remaining ≠ 0`.
* Waiting between attempts races `ctx.Done()` against a timer; whether the
  context fires during the wait that precedes attempt `n` is an oracle
  `ctxDone n`, and goroutine interleavings (for the rate limiter) are spelled
  out as explicit sequences of the mutex-protected critical sections.
-/

/-- Association-list lookup, modelling a Go map read `m[k]`. -/
def lookupA {κ β : Type} [DecidableEq κ] (l : List (κ × β)) (k : κ) : Option β :=
  (l.find? (fun p => p.1 = k)).map (·.2)

/-- Association-list insert, modelling a Go map write `m[k] = v`
(any previous binding for `k` is replaced). -/
def insertA {κ β : Type} [DecidableEq κ] (l : List (κ × β)) (k : κ) (v : β) :
    List (κ × β) :=
  (k, v) :: l.filter (fun p => ¬ p.1 = k)

/-- Go conversion `time.Duration(f)` of a `float64`: truncation toward zero
(`Rat.floor` is used rather than `Int.floor` to keep the definition
kernel-computable; they agree, see `truncFloat_eq_floor`). -/
def truncFloat (q : ℚ) : Int :=
  if 0 ≤ q then q.floor else -(-q).floor

/-- `pow` from `httpclient` and `grpcclient`: `result := 1.0; for i := 0;
i < int(exp); i++ { result *= base }`.  Both call sites pass
`exp = float64(attempt-1)`, an exact integer, so the exponent is a `Nat`. -/
def powFloat (base : ℚ) : Nat → ℚ
  | 0 => 1
  | n + 1 => powFloat base n * base

namespace Httpclient

/-- `httpclient.RetryConfig` (src/unnamed/part_002).  `MaxRetries` is a Go
`int`, delays are `time.Duration` nanoseconds, `BackoffFactor` a `float64`,
`RetryableErrors` the list of retryable HTTP status codes. -/
structure RetryConfig where
  maxRetries : Int
  initialDelay : Int
  maxDelay : Int
  backoffFactor : ℚ
  retryableErrors : List Int
deriving DecidableEq

/-- `httpclient.DefaultRetryConfig()`. -/
def DefaultRetryConfig : RetryConfig where
  maxRetries := 3
  initialDelay := 500000000
  maxDelay := 5000000000
  backoffFactor := 2
  retryableErrors := [408, 429, 500, 502, 503, 504]

/-- `httpclient.Config` (the fields the retry path reads). -/
structure Config where
  baseURL : String
  serviceName : String
  timeout : Int
  retryConfig : RetryConfig

/-- `httpclient.Client` (the fields the retry path reads). -/
structure Client where
  timeout : Int
  retryConfig : RetryConfig
  baseURL : String
  serviceName : String

/-- `httpclient.NewClient`: a zero `Timeout` defaults to 30s and a zero
`RetryConfig.MaxRetries` replaces the whole retry configuration with
`DefaultRetryConfig()`. -/
def NewClient (cfg : Config) : Client where
  timeout := if cfg.timeout = 0 then 30000000000 else cfg.timeout
  retryConfig :=
    if cfg.retryConfig.maxRetries = 0 then DefaultRetryConfig else cfg.retryConfig
  baseURL := cfg.baseURL
  serviceName := cfg.serviceName

/-- `Client.shouldRetry`: membership of the status code in
`RetryConfig.RetryableErrors`. -/
def shouldRetry (cfg : RetryConfig) (statusCode : Int) : Bool :=
  cfg.retryableErrors.contains statusCode

/-- `httpclient.Client.calculateBackoff`: `float64(InitialDelay) *
pow(BackoffFactor, float64(attempt-1))`, returned as `MaxDelay` when it
exceeds `float64(MaxDelay)`, else truncated to a `time.Duration`. -/
def calculateBackoff (cfg : RetryConfig) (attempt : Nat) : Int :=
  let delay : ℚ := (cfg.initialDelay : ℚ) * powFloat cfg.backoffFactor (attempt - 1)
  if delay > (cfg.maxDelay : ℚ) then cfg.maxDelay else truncFloat delay

/-- Outcome of one `doRequest` call: a response (Go `err == nil`) with its
status code and body, or a transport/serialization error (Go `err != nil`). -/
inductive AttemptResult where
  | response (statusCode : Int) (body : String)
  | transportErr (msg : String)
deriving DecidableEq

/-- `httpclient.Response` (the fields the retry loop reads). -/
structure Response where
  statusCode : Int
  body : String
deriving DecidableEq

/-- The `lastErr` recorded by the `Do` loop: a transport error, or the
`fmt.Errorf("HTTP %d: %s", ...)` error built from a retryable status. -/
inductive LastErr where
  | transport (msg : String)
  | httpStatus (statusCode : Int) (body : String)
deriving DecidableEq

/-- Errors `Client.Do` can return: the context's cancellation error (from the
cancelled inter-attempt wait) or `NewServiceUnavailableError(serviceName,
lastErr)` after the budget is exhausted. -/
inductive DoError where
  | ctxErr
  | serviceUnavailable (serviceName : String) (wrapped : Option LastErr)
deriving DecidableEq

/-- The `for attempt := 0; attempt <= MaxRetries; attempt++` loop of
`httpclient.Client.Do`, together with the count of `doRequest` calls it
performs.  `attemptFn n` is the result of the `n`-th `doRequest`;
`ctxDone n` says whether `ctx.Done()` wins the `select` race during the wait
preceding attempt `n`; `remaining` is the iteration budget (see module
comment). -/
def doLoop (serviceName : String) (cfg : RetryConfig)
    (attemptFn : Nat → AttemptResult) (ctxDone : Nat → Bool) :
    Nat → Nat → Option LastErr → (Except DoError Response × Nat)
  | _, 0, lastErr => (.error (.serviceUnavailable serviceName lastErr), 0)
  | attempt, remaining + 1, _lastErr =>
    if attempt > 0 && ctxDone attempt then
      (.error .ctxErr, 0)
    else
      match attemptFn attempt with
      | .response st body =>
        if shouldRetry cfg st then
          let r := doLoop serviceName cfg attemptFn ctxDone (attempt + 1) remaining
            (some (.httpStatus st body))
          (r.1, r.2 + 1)
        else
          (.ok ⟨st, body⟩, 1)
      | .transportErr m =>
        let r := doLoop serviceName cfg attemptFn ctxDone (attempt + 1) remaining
          (some (.transport m))
        (r.1, r.2 + 1)

/-- `httpclient.Client.Do`: runs the retry loop from attempt 0 with the full
budget of `MaxRetries + 1` iterations.  Returns the result and the number of
attempts performed. -/
def ClientDo (c : Client) (attemptFn : Nat → AttemptResult)
    (ctxDone : Nat → Bool) : Except DoError Response × Nat :=
  doLoop c.serviceName c.retryConfig attemptFn ctxDone 0
    (c.retryConfig.maxRetries + 1).toNat none

end Httpclient

namespace Grpcclient

/-- `grpcclient.RetryConfig` (src/grpcclient/client.go).  gRPC status codes
(`codes.Code`, a `uint32`) are `Nat`. -/
structure RetryConfig where
  maxRetries : Int
  initialDelay : Int
  maxDelay : Int
  backoffFactor : ℚ
  retryableCodes : List Nat
deriving DecidableEq

/-- `grpcclient.DefaultRetryConfig()`: codes Unavailable (14),
ResourceExhausted (8), DeadlineExceeded (4), Internal (13). -/
def DefaultRetryConfig : RetryConfig where
  maxRetries := 3
  initialDelay := 500000000
  maxDelay := 5000000000
  backoffFactor := 2
  retryableCodes := [14, 8, 4, 13]

/-- `grpcclient.Config` (the fields the retry path reads). -/
structure Config where
  target : String
  serviceName : String
  retryConfig : RetryConfig

/-- `grpcclient.Client` (the fields the retry path reads; the dialled
connection is outside the model). -/
structure Client where
  retryConfig : RetryConfig
  target : String
  serviceName : String

/-- The configuration normalization performed by `grpcclient.NewClient`
before dialling: a zero `RetryConfig.MaxRetries` replaces the whole retry
configuration with `DefaultRetryConfig()`. -/
def NewClient (cfg : Config) : Client where
  retryConfig :=
    if cfg.retryConfig.maxRetries = 0 then DefaultRetryConfig else cfg.retryConfig
  target := cfg.target
  serviceName := cfg.serviceName

/-- `grpcclient.shouldRetryCode`. -/
def shouldRetryCode (code : Nat) (retryableCodes : List Nat) : Bool :=
  retryableCodes.contains code

/-- `grpcclient.calculateBackoff` (same formula as the HTTP client's). -/
def calculateBackoff (cfg : RetryConfig) (attempt : Nat) : Int :=
  let delay : ℚ := (cfg.initialDelay : ℚ) * powFloat cfg.backoffFactor (attempt - 1)
  if delay > (cfg.maxDelay : ℚ) then cfg.maxDelay else truncFloat delay

/-- What the retry interceptor returns: success, the original (non-retryable)
error with its status code, the context's cancellation error, or
`NewServiceUnavailableError(serviceName, lastErr)` (grpcclient/errors.go)
carrying the service name and the last error's status code. -/
inductive RetryOutcome where
  | ok
  | err (code : Nat)
  | ctxErr
  | serviceUnavailable (serviceName : String) (wrapped : Option Nat)
deriving DecidableEq

/-- The retry loop of `grpcclient.createRetryInterceptor`, with the count of
`invoker` calls.  `invoker n = none` models a `nil` error from the `n`-th
invocation, `invoker n = some code` an error whose `status.FromError` code is
`code`; `ctxDone` and `remaining` are as in `Httpclient.doLoop`. -/
def retryLoop (serviceName : String) (cfg : RetryConfig)
    (invoker : Nat → Option Nat) (ctxDone : Nat → Bool) :
    Nat → Nat → Option Nat → (RetryOutcome × Nat)
  | _, 0, lastErr => (.serviceUnavailable serviceName lastErr, 0)
  | attempt, remaining + 1, _lastErr =>
    if attempt > 0 && ctxDone attempt then
      (.ctxErr, 0)
    else
      match invoker attempt with
      | none => (.ok, 1)
      | some code =>
        if shouldRetryCode code cfg.retryableCodes then
          let r := retryLoop serviceName cfg invoker ctxDone (attempt + 1) remaining
            (some code)
          (r.1, r.2 + 1)
        else
          (.err code, 1)

/-- `grpcclient.createRetryInterceptor`'s behaviour on one call: the loop from
attempt 0 with the full `MaxRetries + 1` budget. -/
def retryInterceptor (serviceName : String) (cfg : RetryConfig)
    (invoker : Nat → Option Nat) (ctxDone : Nat → Bool) : RetryOutcome × Nat :=
  retryLoop serviceName cfg invoker ctxDone 0 (cfg.maxRetries + 1).toNat none

end Grpcclient

namespace Cache

/-- `cache.Options` (the fields `MemoryCache` reads; the serializer is outside
the model since `Get`/`Set` move raw bytes). -/
structure Options where
  defaultTTL : Int
  keyPrefix : String
deriving DecidableEq

/-- `cache.DefaultOptions()` (24h default TTL, empty prefix). -/
def DefaultOptions : Options where
  defaultTTL := 86400000000000
  keyPrefix := ""

/-- `cache.memoryItem`: value bytes plus expiry; `expiresAt = none` models the
zero `time.Time` (no expiration). -/
structure MemoryItem where
  value : String
  expiresAt : Option Int
deriving DecidableEq

/-- `cache.MemoryCache` (its map and options; the sweep goroutine is a
separate operation). -/
structure MemoryCache where
  items : List (String × MemoryItem)
  options : Options
deriving DecidableEq

/-- `MemoryCache.buildKey`. -/
def buildKey (c : MemoryCache) (key : String) : String :=
  if c.options.keyPrefix ≠ "" then c.options.keyPrefix ++ ":" ++ key else key

/-- `cache.ErrKeyNotFound` and `cache.ErrKeyExpired`. -/
inductive CacheError where
  | keyNotFound
  | keyExpired
deriving DecidableEq

/-- `MemoryCache.Get` at time `now`: absent key is `ErrKeyNotFound`; a present
entry whose expiry is set and strictly passed is `ErrKeyExpired`; otherwise
the stored value. -/
def MemoryCache.Get (c : MemoryCache) (now : Int) (key : String) :
    Except CacheError String :=
  match lookupA c.items (buildKey c key) with
  | none => .error .keyNotFound
  | some item =>
    match item.expiresAt with
    | some e => if now > e then .error .keyExpired else .ok item.value
    | none => .ok item.value

/-- `MemoryCache.Set` at time `now`: a zero `ttl` is replaced with the default
TTL; a positive effective TTL sets `expiresAt = now + ttl`, otherwise the
entry never expires. -/
def MemoryCache.Set (c : MemoryCache) (now : Int) (key value : String)
    (ttl : Int) : MemoryCache :=
  let ttl1 := if ttl = 0 then c.options.defaultTTL else ttl
  let item : MemoryItem :=
    if ttl1 > 0 then ⟨value, some (now + ttl1)⟩ else ⟨value, none⟩
  { c with items := insertA c.items (buildKey c key) item }

/-- `MemoryCache.removeExpired` (the sweep body) at time `now`. -/
def MemoryCache.removeExpired (c : MemoryCache) (now : Int) : MemoryCache :=
  { c with
    items := c.items.filter fun kv =>
      match kv.2.expiresAt with
      | some e => decide (¬ now > e)
      | none => true }

end Cache

namespace Middleware

/-- `middleware.TokenValidationResult`
(src/http/middleware/service_auth_remote.go).  Scopes are inspected
byte-wise, hence `List Char`. -/
structure TokenValidationResult where
  valid : Bool
  clientID : String
  serviceName : String
  tenantID : String
  userID : String
  scopes : List (List Char)
  expiresAt : Int
deriving DecidableEq

/-- `middleware.cachedTokenValidation`. -/
structure CachedTokenValidation where
  result : TokenValidationResult
  expiresAt : Int
deriving DecidableEq

/-- `middleware.TokenValidationCache` (keyed by the raw token). -/
structure TokenValidationCache where
  cache : List (List Char × CachedTokenValidation)
deriving DecidableEq

/-- `TokenValidationCache.get` at time `now`: a miss, or an entry whose local
expiry has strictly passed, is `nil` (absent). -/
def TokenValidationCache.get (c : TokenValidationCache) (now : Int)
    (token : List Char) : Option TokenValidationResult :=
  match lookupA c.cache token with
  | none => none
  | some cached => if now > cached.expiresAt then none else some cached.result

/-- `TokenValidationCache.cleanup` at time `now`: drop every strictly-expired
entry. -/
def TokenValidationCache.cleanup (c : TokenValidationCache) (now : Int) :
    TokenValidationCache :=
  ⟨c.cache.filter fun kv => decide (¬ now > kv.2.expiresAt)⟩

/-- `TokenValidationCache.set` at time `now`: store with `expiresAt = now +
ttl`, then run the inline cleanup when the table holds more than 1000
entries. -/
def TokenValidationCache.set (c : TokenValidationCache) (now : Int)
    (token : List Char) (result : TokenValidationResult) (ttl : Int) :
    TokenValidationCache :=
  let c1 : TokenValidationCache := ⟨insertA c.cache token ⟨result, now + ttl⟩⟩
  if c1.cache.length > 1000 then c1.cleanup now else c1

/-- `middleware.hasScopeInList`: a held scope satisfies `required` when it is
`"*"`, equals `required` exactly, or `required` splits on `":"` into exactly
two parts and the held scope is `parts[0] + ":*"`. -/
def hasScopeInList (scopes : List (List Char)) (required : List Char) : Bool :=
  scopes.any fun scope =>
    scope == ['*'] || scope == required ||
      (match required.splitOn ':' with
       | [a, _] => scope == a ++ [':', '*']
       | _ => false)

/-- `middleware.RemoteServiceAuthConfig` (the fields the handler reads). -/
structure RemoteServiceAuthConfig where
  tokenValidator : List Char → Except String TokenValidationResult
  cacheTTL : Int
  skipPaths : List (List Char)
  requiredScope : List Char
  enabled : Bool

/-- What the fiber handler does with the request: pass through untouched
(auth disabled or skipped path), pass through with the service info locals
attached, reject 401, or reject 403. -/
inductive AuthOutcome where
  | nextSkipped
  | next (clientID serviceName tenantID : String) (scopes : List (List Char))
  | unauthorized (msg : String)
  | forbidden
deriving DecidableEq

/-- Result of one middleware invocation: the outcome, the token cache after
the call, and the token the remote validator was called with (if it was
called at all). -/
structure MiddlewareResult where
  outcome : AuthOutcome
  cache : TokenValidationCache
  remoteCalledWith : Option (List Char)

/-- The body of `RemoteServiceAuthMiddleware` from the cache lookup on
(line 80), acting on the already-stripped token. -/
def authWithToken (cfg : RemoteServiceAuthConfig) (cache : TokenValidationCache)
    (now : Int) (token : List Char) : MiddlewareResult :=
  match cache.get now token with
  | some cached =>
    if decide (cfg.requiredScope ≠ []) && !hasScopeInList cached.scopes cfg.requiredScope then
      ⟨.forbidden, cache, none⟩
    else
      ⟨.next cached.clientID cached.serviceName cached.tenantID cached.scopes, cache, none⟩
  | none =>
    match cfg.tokenValidator token with
    | .error _ => ⟨.unauthorized "Invalid service token", cache, some token⟩
    | .ok validation =>
      if !validation.valid then
        ⟨.unauthorized "Token is not valid", cache, some token⟩
      else
        let ttl := if cfg.cacheTTL = 0 then 300000000000 else cfg.cacheTTL
        let cache1 := cache.set now token validation ttl
        if decide (cfg.requiredScope ≠ []) && !hasScopeInList validation.scopes cfg.requiredScope then
          ⟨.forbidden, cache1, some token⟩
        else
          ⟨.next validation.clientID validation.serviceName validation.tenantID
            validation.scopes, cache1, some token⟩

/-- The bytes of `"Bearer "`. -/
def bearerPrefix : List Char := "Bearer ".toList

/-- `middleware.RemoteServiceAuthMiddleware`, one request: disabled-auth and
skip-path pass-throughs, then the authorization-header check — an empty
header or one without the `"Bearer "` prefix is an immediate 401 — then
`token := authHeader[7:]` and the cache/remote pipeline. -/
def RemoteServiceAuthMiddleware (cfg : RemoteServiceAuthConfig)
    (cache : TokenValidationCache) (now : Int) (path authHeader : List Char) :
    MiddlewareResult :=
  if !cfg.enabled then
    ⟨.nextSkipped, cache, none⟩
  else if cfg.skipPaths.any (fun p => p.isPrefixOf path) then
    ⟨.nextSkipped, cache, none⟩
  else if authHeader == [] || !(bearerPrefix.isPrefixOf authHeader) then
    ⟨.unauthorized "Missing or invalid authorization header", cache, none⟩
  else
    authWithToken cfg cache now (authHeader.drop 7)

end Middleware

namespace GrpcAuth

/-- `grpc.TokenValidationResult` (src/grpc/auth_interceptor.go). -/
structure TokenValidationResult where
  valid : Bool
  clientID : String
  serviceName : String
  tenantID : String
  userID : String
  scopes : List (List Char)
  expiresAt : Int
deriving DecidableEq

/-- `grpc.cachedValidation`. -/
structure CachedValidation where
  result : TokenValidationResult
  expiresAt : Int
deriving DecidableEq

/-- `grpc.grpcTokenCache`. -/
structure GrpcTokenCache where
  cache : List (List Char × CachedValidation)
deriving DecidableEq

/-- `grpcTokenCache.get` at time `now` (read-time expiry check). -/
def GrpcTokenCache.get (c : GrpcTokenCache) (now : Int) (token : List Char) :
    Option TokenValidationResult :=
  match lookupA c.cache token with
  | none => none
  | some cached => if now > cached.expiresAt then none else some cached.result

/-- `grpcTokenCache.cleanup` at time `now`. -/
def GrpcTokenCache.cleanup (c : GrpcTokenCache) (now : Int) : GrpcTokenCache :=
  ⟨c.cache.filter fun kv => decide (¬ now > kv.2.expiresAt)⟩

/-- `grpcTokenCache.set` at time `now`, with the inline cleanup above 1000
entries. -/
def GrpcTokenCache.set (c : GrpcTokenCache) (now : Int) (token : List Char)
    (result : TokenValidationResult) (ttl : Int) : GrpcTokenCache :=
  let c1 : GrpcTokenCache := ⟨insertA c.cache token ⟨result, now + ttl⟩⟩
  if c1.cache.length > 1000 then c1.cleanup now else c1

/-- `grpc.HasScope` (textually the same algorithm as
`middleware.hasScopeInList`). -/
def HasScope (scopes : List (List Char)) (required : List Char) : Bool :=
  scopes.any fun scope =>
    scope == ['*'] || scope == required ||
      (match required.splitOn ':' with
       | [a, _] => scope == a ++ [':', '*']
       | _ => false)

/-- `grpc.AuthInterceptorConfig` (the fields `validateGRPCToken` reads). -/
structure AuthInterceptorConfig where
  tokenValidator : List Char → Except String TokenValidationResult
  cacheTTL : Int

/-- What `validateGRPCToken` returns: the enriched context (modelled by the
validation result attached to it by `addServiceInfoToContext`) or a
`codes.Unauthenticated` status error. -/
inductive GrpcAuthOutcome where
  | allowed (result : TokenValidationResult)
  | unauthenticated (msg : String)
deriving DecidableEq

/-- Result of one `validateGRPCToken` call: outcome, cache afterwards, and
the token the remote validator was called with (if at all). -/
structure GrpcAuthResult where
  outcome : GrpcAuthOutcome
  cache : GrpcTokenCache
  remoteCalledWith : Option (List Char)

/-- `strings.TrimPrefix`. -/
def trimPrefix (s pre : List Char) : List Char :=
  if pre.isPrefixOf s then s.drop pre.length else s

/-- The body of `validateGRPCToken` from the cache check on (line 166),
acting on the already-stripped token. -/
def validateWithToken (cfg : AuthInterceptorConfig) (cache : GrpcTokenCache)
    (now : Int) (token : List Char) : GrpcAuthResult :=
  match cache.get now token with
  | some cached => ⟨.allowed cached, cache, none⟩
  | none =>
    match cfg.tokenValidator token with
    | .error _ => ⟨.unauthenticated "token validation failed", cache, some token⟩
    | .ok validation =>
      if !validation.valid then
        ⟨.unauthenticated "invalid token", cache, some token⟩
      else
        let ttl := if cfg.cacheTTL = 0 then 300000000000 else cfg.cacheTTL
        ⟨.allowed validation, cache.set now token validation ttl, some token⟩

/-- `grpc.validateGRPCToken`: `md = none` models
`metadata.FromIncomingContext` reporting no metadata, otherwise `md` is the
`authorization` value list; `token := strings.TrimPrefix(authHeader[0],
"Bearer ")`, and `token == authHeader[0]` (no prefix was removed) is an
immediate Unauthenticated rejection. -/
def validateGRPCToken (cfg : AuthInterceptorConfig) (cache : GrpcTokenCache)
    (now : Int) (md : Option (List (List Char))) : GrpcAuthResult :=
  match md with
  | none => ⟨.unauthenticated "missing metadata", cache, none⟩
  | some authHeader =>
    match authHeader with
    | [] => ⟨.unauthenticated "missing authorization header", cache, none⟩
    | h :: _ =>
      let token := trimPrefix h Middleware.bearerPrefix
      if token == h then
        ⟨.unauthenticated "invalid authorization format", cache, none⟩
      else
        validateWithToken cfg cache now token

end GrpcAuth

namespace Limiter

/-- `limiter.limiterEntry`: a bucket is identified by the allocation index of
its `rate.NewLimiter` call, so distinct ids are distinct bucket objects. -/
structure LimiterEntry where
  limiterId : Nat
  lastSeen : Int
deriving DecidableEq

/-- The mutable state of `limiter.IPRateLimiter`: the ip → entry map plus the
allocator counter for fresh `rate.Limiter` instances. -/
structure IPRateLimiterState where
  ips : List (String × LimiterEntry)
  nextLimiterId : Nat
deriving DecidableEq

/-- `IPRateLimiter.AddIP`, one mutex-protected critical section (lines
120-131): allocate a fresh `rate.Limiter`, store it under `ip`
unconditionally (overwriting any existing entry), and return the freshly
allocated bucket. -/
def AddIP (s : IPRateLimiterState) (ip : String) (now : Int) :
    IPRateLimiterState × Nat :=
  (⟨insertA s.ips ip ⟨s.nextLimiterId, now⟩, s.nextLimiterId + 1⟩, s.nextLimiterId)

/-- The first mutex-protected critical section of `IPRateLimiter.GetLimiter`
(lines 136-146): look the key up; on a hit, refresh `lastSeen` and return the
existing bucket; on a miss, return nothing — the mutex is released (line 140)
before the caller goes on to `AddIP`. -/
def getLimiterLookup (s : IPRateLimiterState) (ip : String) (now : Int) :
    IPRateLimiterState × Option Nat :=
  match lookupA s.ips ip with
  | none => (s, none)
  | some entry =>
    (⟨insertA s.ips ip ⟨entry.limiterId, now⟩, s.nextLimiterId⟩, some entry.limiterId)

/-- `IPRateLimiter.GetLimiter` when no other goroutine runs between its two
critical sections. -/
def GetLimiter (s : IPRateLimiterState) (ip : String) (now : Int) :
    IPRateLimiterState × Nat :=
  match getLimiterLookup s ip now with
  | (s1, none) => AddIP s1 ip now
  | (s1, some lid) => (s1, lid)

/-- Two goroutines A and B call `GetLimiter ip` concurrently on a fresh
limiter.  Because the mutex is released between a missed lookup and the
subsequent `AddIP`, the interleaving A-lookup, B-lookup, A-AddIP, B-AddIP of
the four critical sections is permitted; each goroutine still runs its own
sections in program order.  Returns `some (bucketA, bucketB, finalState)`
when the interleaving is realizable (both lookups miss), mirroring what each
caller's `GetLimiter` returns. -/
def raceTwoGetLimiter (ip : String) (now : Int) :
    Option (Nat × Nat × IPRateLimiterState) :=
  let s0 : IPRateLimiterState := ⟨[], 0⟩
  match getLimiterLookup s0 ip now with
  | (s1, none) =>
    match getLimiterLookup s1 ip now with
    | (s2, none) =>
      let a2 := AddIP s2 ip now
      let b2 := AddIP a2.1 ip now
      some (a2.2, b2.2, b2.1)
    | _ => none
  | _ => none

end Limiter

/-- Classifies an HTTP attempt outcome the `Do` loop keeps retrying on: a
transport error (always retried), or a response whose status is in the
retryable set. -/
def attemptIsRetryableFailure (cfg : Httpclient.RetryConfig) :
    Httpclient.AttemptResult → Bool
  | .response st _ => Httpclient.shouldRetry cfg st
  | .transportErr _ => true

/-- The `lastErr` value the `Do` loop records for a failed attempt. -/
def lastErrOf : Httpclient.AttemptResult → Httpclient.LastErr
  | .response st body => .httpStatus st body
  | .transportErr m => .transport m

/-- On nonnegative arguments the Go float→duration conversion is the floor. -/
theorem truncFloat_eq_floor (q : ℚ) (h : 0 ≤ q) : truncFloat q = ⌊q⌋ := by
  rw [truncFloat, if_pos h]
  exact (Rat.floor_def' q).trans Rat.floor_def.symm

/-- The `pow` loop computes the monoid power. -/
theorem powFloat_eq_pow (base : ℚ) : ∀ n, powFloat base n = base ^ n
  | 0 => by rw [powFloat, pow_zero]
  | n + 1 => by rw [powFloat, powFloat_eq_pow base n, pow_succ]

/-- The two `calculateBackoff` functions are the same function of the shared
numeric fields. -/
theorem grpc_calculateBackoff_eq_http (cfg : Grpcclient.RetryConfig) (n : Nat) :
    Grpcclient.calculateBackoff cfg n =
      Httpclient.calculateBackoff
        ⟨cfg.maxRetries, cfg.initialDelay, cfg.maxDelay, cfg.backoffFactor, []⟩ n :=
  rfl

/-- The backoff is the claimed product, clamped (as a minimum) to
`maxDelay`. -/
theorem http_calculateBackoff_clamp (cfg : Httpclient.RetryConfig) (n : Nat)
    (hinit : 0 ≤ cfg.initialDelay) (hfac : 0 ≤ cfg.backoffFactor) :
    Httpclient.calculateBackoff cfg n
      = min ⌊(cfg.initialDelay : ℚ) * cfg.backoffFactor ^ (n - 1)⌋ cfg.maxDelay := by
  have hq : (0 : ℚ) ≤ (cfg.initialDelay : ℚ) * cfg.backoffFactor ^ (n - 1) :=
    mul_nonneg (by exact_mod_cast hinit) (pow_nonneg hfac _)
  rw [Httpclient.calculateBackoff, powFloat_eq_pow]
  split
  · next h =>
    exact (min_eq_right (Int.le_floor.mpr (le_of_lt h))).symm
  · next h =>
    rw [truncFloat_eq_floor _ hq]
    push_neg at h
    refine (min_eq_left ?_).symm
    have h2 := Int.floor_le_floor h
    simpa using h2

/-- At attempt 1 the backoff is exactly the initial delay. -/
theorem http_calculateBackoff_one (cfg : Httpclient.RetryConfig)
    (hinit : 0 ≤ cfg.initialDelay) (hfac : 0 ≤ cfg.backoffFactor)
    (hmax : cfg.initialDelay ≤ cfg.maxDelay) :
    Httpclient.calculateBackoff cfg 1 = cfg.initialDelay := by
  rw [http_calculateBackoff_clamp cfg 1 hinit hfac]
  norm_num
  exact hmax

/-- The backoff is monotone in the attempt index. -/
theorem http_calculateBackoff_mono (cfg : Httpclient.RetryConfig) (n : Nat)
    (hn : 1 ≤ n) (hinit : 0 ≤ cfg.initialDelay) (hfac : 1 ≤ cfg.backoffFactor) :
    Httpclient.calculateBackoff cfg n ≤ Httpclient.calculateBackoff cfg (n + 1) := by
  have hfac0 : (0 : ℚ) ≤ cfg.backoffFactor := le_trans zero_le_one hfac
  rw [http_calculateBackoff_clamp cfg n hinit hfac0,
    http_calculateBackoff_clamp cfg (n + 1) hinit hfac0]
  refine min_le_min (Int.floor_le_floor ?_) le_rfl
  refine mul_le_mul_of_nonneg_left ?_ (by exact_mod_cast hinit)
  exact pow_le_pow_right₀ hfac (by omega)

/-- C4: for every valid policy (`backoffFactor > 1`, nonnegative
`initialDelay ≤ maxDelay`) and every attempt `n ≥ 1`, both clients'
`calculateBackoff` return `initialDelay × backoffFactor^(n-1)` clamped to
`maxDelay` (the value is truncated to a whole duration, hence the floor);
`delay(1)` is exactly `initialDelay`, and the delay is monotone
nondecreasing in `n`. -/
theorem c4_backoff_formula
    (cfgH : Httpclient.RetryConfig) (cfgG : Grpcclient.RetryConfig) (n : Nat)
    (hn : 1 ≤ n)
    (hfacH : 1 < cfgH.backoffFactor) (hinitH : 0 ≤ cfgH.initialDelay)
    (hmaxH : cfgH.initialDelay ≤ cfgH.maxDelay)
    (hfacG : 1 < cfgG.backoffFactor) (hinitG : 0 ≤ cfgG.initialDelay)
    (hmaxG : cfgG.initialDelay ≤ cfgG.maxDelay) :
    (Httpclient.calculateBackoff cfgH n
        = min ⌊(cfgH.initialDelay : ℚ) * cfgH.backoffFactor ^ (n - 1)⌋ cfgH.maxDelay
      ∧ Httpclient.calculateBackoff cfgH 1 = cfgH.initialDelay
      ∧ Httpclient.calculateBackoff cfgH n ≤ Httpclient.calculateBackoff cfgH (n + 1))
    ∧ (Grpcclient.calculateBackoff cfgG n
        = min ⌊(cfgG.initialDelay : ℚ) * cfgG.backoffFactor ^ (n - 1)⌋ cfgG.maxDelay
      ∧ Grpcclient.calculateBackoff cfgG 1 = cfgG.initialDelay
      ∧ Grpcclient.calculateBackoff cfgG n ≤ Grpcclient.calculateBackoff cfgG (n + 1)) := by
  have hfacH0 : (0 : ℚ) ≤ cfgH.backoffFactor := le_trans zero_le_one (le_of_lt hfacH)
  have hfacG0 : (0 : ℚ) ≤ cfgG.backoffFactor := le_trans zero_le_one (le_of_lt hfacG)
  refine ⟨⟨?_, ?_, ?_⟩, ?_, ?_, ?_⟩
  · exact http_calculateBackoff_clamp cfgH n hinitH hfacH0
  · exact http_calculateBackoff_one cfgH hinitH hfacH0 hmaxH
  · exact http_calculateBackoff_mono cfgH n hn hinitH (le_of_lt hfacH)
  · rw [grpc_calculateBackoff_eq_http]
    exact http_calculateBackoff_clamp _ n hinitG hfacG0
  · rw [grpc_calculateBackoff_eq_http]
    exact http_calculateBackoff_one _ hinitG hfacG0 hmaxG
  · rw [grpc_calculateBackoff_eq_http, grpc_calculateBackoff_eq_http]
    exact http_calculateBackoff_mono _ n hn hinitG (le_of_lt hfacG)

/-- Witness for C4 at the default policies and attempt 2. -/
theorem c4_backoff_formula_witness :
    (1 ≤ 2 ∧ 1 < Httpclient.DefaultRetryConfig.backoffFactor
      ∧ 0 ≤ Httpclient.DefaultRetryConfig.initialDelay
      ∧ Httpclient.DefaultRetryConfig.initialDelay ≤ Httpclient.DefaultRetryConfig.maxDelay
      ∧ 1 < Grpcclient.DefaultRetryConfig.backoffFactor
      ∧ 0 ≤ Grpcclient.DefaultRetryConfig.initialDelay
      ∧ Grpcclient.DefaultRetryConfig.initialDelay ≤ Grpcclient.DefaultRetryConfig.maxDelay)
    ∧ ((Httpclient.calculateBackoff Httpclient.DefaultRetryConfig 2
        = min ⌊(Httpclient.DefaultRetryConfig.initialDelay : ℚ)
            * Httpclient.DefaultRetryConfig.backoffFactor ^ (2 - 1)⌋
            Httpclient.DefaultRetryConfig.maxDelay
      ∧ Httpclient.calculateBackoff Httpclient.DefaultRetryConfig 1
        = Httpclient.DefaultRetryConfig.initialDelay
      ∧ Httpclient.calculateBackoff Httpclient.DefaultRetryConfig 2
        ≤ Httpclient.calculateBackoff Httpclient.DefaultRetryConfig (2 + 1))
    ∧ (Grpcclient.calculateBackoff Grpcclient.DefaultRetryConfig 2
        = min ⌊(Grpcclient.DefaultRetryConfig.initialDelay : ℚ)
            * Grpcclient.DefaultRetryConfig.backoffFactor ^ (2 - 1)⌋
            Grpcclient.DefaultRetryConfig.maxDelay
      ∧ Grpcclient.calculateBackoff Grpcclient.DefaultRetryConfig 1
        = Grpcclient.DefaultRetryConfig.initialDelay
      ∧ Grpcclient.calculateBackoff Grpcclient.DefaultRetryConfig 2
        ≤ Grpcclient.calculateBackoff Grpcclient.DefaultRetryConfig (2 + 1))) :=
  ⟨⟨by norm_num, by norm_num [Httpclient.DefaultRetryConfig],
      by norm_num [Httpclient.DefaultRetryConfig],
      by norm_num [Httpclient.DefaultRetryConfig],
      by norm_num [Grpcclient.DefaultRetryConfig],
      by norm_num [Grpcclient.DefaultRetryConfig],
      by norm_num [Grpcclient.DefaultRetryConfig]⟩,
    c4_backoff_formula Httpclient.DefaultRetryConfig Grpcclient.DefaultRetryConfig 2
      (by norm_num) (by norm_num [Httpclient.DefaultRetryConfig])
      (by norm_num [Httpclient.DefaultRetryConfig])
      (by norm_num [Httpclient.DefaultRetryConfig])
      (by norm_num [Grpcclient.DefaultRetryConfig])
      (by norm_num [Grpcclient.DefaultRetryConfig])
      (by norm_num [Grpcclient.DefaultRetryConfig])⟩

/-- One-step unfolding of `Grpcclient.retryLoop` (loop body). -/
theorem grpc_retryLoop_succ (serviceName : String) (cfg : Grpcclient.RetryConfig)
    (invoker : Nat → Option Nat) (ctxDone : Nat → Bool)
    (attempt remaining : Nat) (lastErr : Option Nat) :
    Grpcclient.retryLoop serviceName cfg invoker ctxDone attempt
        (remaining + 1) lastErr
      = if attempt > 0 && ctxDone attempt then (.ctxErr, 0)
        else
          match invoker attempt with
          | none => (.ok, 1)
          | some code =>
            if Grpcclient.shouldRetryCode code cfg.retryableCodes then
              ((Grpcclient.retryLoop serviceName cfg invoker ctxDone (attempt + 1)
                  remaining (some code)).1,
                (Grpcclient.retryLoop serviceName cfg invoker ctxDone (attempt + 1)
                  remaining (some code)).2 + 1)
            else (.err code, 1) := rfl

/-- One-step unfolding of `Httpclient.doLoop` (loop body). -/
theorem http_doLoop_succ (serviceName : String) (cfg : Httpclient.RetryConfig)
    (attemptFn : Nat → Httpclient.AttemptResult) (ctxDone : Nat → Bool)
    (attempt remaining : Nat) (lastErr : Option Httpclient.LastErr) :
    Httpclient.doLoop serviceName cfg attemptFn ctxDone attempt
        (remaining + 1) lastErr
      = if attempt > 0 && ctxDone attempt then (.error .ctxErr, 0)
        else
          match attemptFn attempt with
          | .response st body =>
            if Httpclient.shouldRetry cfg st then
              ((Httpclient.doLoop serviceName cfg attemptFn ctxDone (attempt + 1)
                  remaining (some (.httpStatus st body))).1,
                (Httpclient.doLoop serviceName cfg attemptFn ctxDone (attempt + 1)
                  remaining (some (.httpStatus st body))).2 + 1)
            else (.ok ⟨st, body⟩, 1)
          | .transportErr m =>
            ((Httpclient.doLoop serviceName cfg attemptFn ctxDone (attempt + 1)
                remaining (some (.transport m))).1,
              (Httpclient.doLoop serviceName cfg attemptFn ctxDone (attempt + 1)
                remaining (some (.transport m))).2 + 1) := rfl

/-- If every attempt fails with a retryable code and the context never fires,
the gRPC retry loop spends its whole budget and returns the exhaustion error
wrapping the last attempt's error. -/
theorem grpc_retryLoop_exhaust (serviceName : String)
    (cfg : Grpcclient.RetryConfig) (invoker : Nat → Option Nat)
    (hfail : ∀ i, ∃ cd, invoker i = some cd ∧
      Grpcclient.shouldRetryCode cd cfg.retryableCodes = true) :
    ∀ (remaining attempt : Nat) (lastErr : Option Nat),
      Grpcclient.retryLoop serviceName cfg invoker (fun _ => false) attempt
          (remaining + 1) lastErr
        = (.serviceUnavailable serviceName (invoker (attempt + remaining)),
            remaining + 1) := by
  intro remaining
  induction remaining with
  | zero =>
    intro attempt lastErr
    obtain ⟨cd, hc, hr⟩ := hfail attempt
    simp [Grpcclient.retryLoop, hc, hr]
  | succ m ih =>
    intro attempt lastErr
    obtain ⟨cd, hc, hr⟩ := hfail attempt
    have harith : attempt + 1 + m = attempt + (m + 1) := by omega
    rw [grpc_retryLoop_succ, hc]
    simp [hr, ih (attempt + 1), harith]

/-- HTTP analogue of `grpc_retryLoop_exhaust`. -/
theorem http_doLoop_exhaust (serviceName : String)
    (cfg : Httpclient.RetryConfig) (attemptFn : Nat → Httpclient.AttemptResult)
    (hfail : ∀ i, attemptIsRetryableFailure cfg (attemptFn i) = true) :
    ∀ (remaining attempt : Nat) (lastErr : Option Httpclient.LastErr),
      Httpclient.doLoop serviceName cfg attemptFn (fun _ => false) attempt
          (remaining + 1) lastErr
        = (.error (.serviceUnavailable serviceName
            (some (lastErrOf (attemptFn (attempt + remaining))))), remaining + 1) := by
  intro remaining
  induction remaining with
  | zero =>
    intro attempt lastErr
    have h := hfail attempt
    cases hc : attemptFn attempt with
    | response st body =>
      rw [hc] at h
      simp only [attemptIsRetryableFailure] at h
      simp [Httpclient.doLoop, hc, h, lastErrOf]
    | transportErr m =>
      simp [Httpclient.doLoop, hc, lastErrOf]
  | succ m ih =>
    intro attempt lastErr
    have harith : attempt + 1 + m = attempt + (m + 1) := by omega
    cases hc : attemptFn attempt with
    | response st body =>
      have h := hfail attempt
      rw [hc] at h
      simp only [attemptIsRetryableFailure] at h
      rw [http_doLoop_succ, hc]
      simp [h, ih (attempt + 1), harith]
    | transportErr mg =>
      rw [http_doLoop_succ, hc]
      simp [ih (attempt + 1), harith]

/-- C2: with `maxRetries = k` (`k ≥ 1`) and an attempt operation that always
returns a retryable failure, both retry engines perform exactly `k + 1`
attempts and return the distinguished service-unavailable error that names
the target service and wraps the last underlying error — no other error. -/
theorem c2_retry_budget (k : Nat) (hk : 1 ≤ k)
    (c : Httpclient.Client) (hkH : c.retryConfig.maxRetries = (k : Int))
    (attemptFn : Nat → Httpclient.AttemptResult)
    (hfailH : ∀ i, attemptIsRetryableFailure c.retryConfig (attemptFn i) = true)
    (serviceNameG : String) (cfgG : Grpcclient.RetryConfig)
    (hkG : cfgG.maxRetries = (k : Int))
    (invoker : Nat → Option Nat)
    (hfailG : ∀ i, ∃ cd, invoker i = some cd ∧
      Grpcclient.shouldRetryCode cd cfgG.retryableCodes = true) :
    Httpclient.ClientDo c attemptFn (fun _ => false)
      = (.error (.serviceUnavailable c.serviceName
          (some (lastErrOf (attemptFn k)))), k + 1)
    ∧ Grpcclient.retryInterceptor serviceNameG cfgG invoker (fun _ => false)
      = (.serviceUnavailable serviceNameG (invoker k), k + 1) := by
  have htH : (c.retryConfig.maxRetries + 1).toNat = k + 1 := by rw [hkH]; omega
  have htG : (cfgG.maxRetries + 1).toNat = k + 1 := by rw [hkG]; omega
  constructor
  · rw [Httpclient.ClientDo, htH]
    have h := http_doLoop_exhaust c.serviceName c.retryConfig attemptFn hfailH k 0 none
    simpa using h
  · rw [Grpcclient.retryInterceptor, htG]
    have h := grpc_retryLoop_exhaust serviceNameG cfgG invoker hfailG k 0 none
    simpa using h

/-- Witness for C2: `k = 1`, HTTP attempts always 503, gRPC attempts always
Unavailable (14). -/
theorem c2_retry_budget_witness :
    (1 ≤ 1
      ∧ attemptIsRetryableFailure ⟨1, 1, 10, 2, [503]⟩ (.response 503 "x") = true
      ∧ Grpcclient.shouldRetryCode 14 [14] = true)
    ∧ Httpclient.ClientDo ⟨0, ⟨1, 1, 10, 2, [503]⟩, "", "svc"⟩
        (fun _ => .response 503 "x") (fun _ => false)
      = (.error (.serviceUnavailable "svc"
          (some (lastErrOf (.response 503 "x")))), 1 + 1)
    ∧ Grpcclient.retryInterceptor "auth" ⟨1, 1, 10, 2, [14]⟩
        (fun _ => some 14) (fun _ => false)
      = (.serviceUnavailable "auth" (some 14), 1 + 1) :=
  ⟨⟨by norm_num, rfl, rfl⟩,
    (c2_retry_budget 1 (by norm_num) ⟨0, ⟨1, 1, 10, 2, [503]⟩, "", "svc"⟩ rfl
      (fun _ => .response 503 "x") (fun _ => rfl) "auth" ⟨1, 1, 10, 2, [14]⟩ rfl
      (fun _ => some 14) (fun _ => ⟨14, rfl, rfl⟩)).1,
    (c2_retry_budget 1 (by norm_num) ⟨0, ⟨1, 1, 10, 2, [503]⟩, "", "svc"⟩ rfl
      (fun _ => .response 503 "x") (fun _ => rfl) "auth" ⟨1, 1, 10, 2, [14]⟩ rfl
      (fun _ => some 14) (fun _ => ⟨14, rfl, rfl⟩)).2⟩

/-- C3: if the first attempt's failure is classified non-retryable (HTTP
status outside `RetryableErrors`; gRPC code outside `RetryableCodes`), both
engines make exactly one attempt and hand the caller the original outcome —
the HTTP client returns the first response as-is, the gRPC interceptor the
original error — never the exhaustion error. -/
theorem c3_nonretryable_short_circuit
    (c : Httpclient.Client) (hmrH : 0 ≤ c.retryConfig.maxRetries)
    (attemptFn : Nat → Httpclient.AttemptResult) (ctxDoneH : Nat → Bool)
    (st : Int) (body : String)
    (hfirstH : attemptFn 0 = .response st body)
    (hnrH : Httpclient.shouldRetry c.retryConfig st = false)
    (serviceNameG : String) (cfgG : Grpcclient.RetryConfig)
    (hmrG : 0 ≤ cfgG.maxRetries)
    (invoker : Nat → Option Nat) (ctxDoneG : Nat → Bool) (code : Nat)
    (hfirstG : invoker 0 = some code)
    (hnrG : Grpcclient.shouldRetryCode code cfgG.retryableCodes = false) :
    Httpclient.ClientDo c attemptFn ctxDoneH = (.ok ⟨st, body⟩, 1)
    ∧ Grpcclient.retryInterceptor serviceNameG cfgG invoker ctxDoneG
      = (.err code, 1) := by
  obtain ⟨m, hm⟩ : ∃ m, (c.retryConfig.maxRetries + 1).toNat = m + 1 :=
    ⟨c.retryConfig.maxRetries.toNat, by omega⟩
  obtain ⟨mg, hmg⟩ : ∃ mg, (cfgG.maxRetries + 1).toNat = mg + 1 :=
    ⟨cfgG.maxRetries.toNat, by omega⟩
  constructor
  · rw [Httpclient.ClientDo, hm]
    simp [Httpclient.doLoop, hfirstH, hnrH]
  · rw [Grpcclient.retryInterceptor, hmg]
    simp [Grpcclient.retryLoop, hfirstG, hnrG]

/-- Witness for C3: HTTP 404 (not retryable) and gRPC InvalidArgument (3, not
retryable) on the first attempt, against the default-shaped policies. -/
theorem c3_nonretryable_short_circuit_witness :
    (0 ≤ (3 : Int)
      ∧ Httpclient.shouldRetry ⟨3, 1, 10, 2, [503]⟩ 404 = false
      ∧ Grpcclient.shouldRetryCode 3 [14] = false)
    ∧ Httpclient.ClientDo ⟨0, ⟨3, 1, 10, 2, [503]⟩, "", "svc"⟩
        (fun _ => .response 404 "nf") (fun _ => false)
      = (.ok ⟨404, "nf"⟩, 1)
    ∧ Grpcclient.retryInterceptor "auth" ⟨3, 1, 10, 2, [14]⟩
        (fun _ => some 3) (fun _ => false)
      = (.err 3, 1) :=
  ⟨⟨by norm_num, rfl, rfl⟩,
    (c3_nonretryable_short_circuit ⟨0, ⟨3, 1, 10, 2, [503]⟩, "", "svc"⟩
      (by norm_num) (fun _ => .response 404 "nf") (fun _ => false) 404 "nf" rfl rfl
      "auth" ⟨3, 1, 10, 2, [14]⟩ (by norm_num)
      (fun _ => some 3) (fun _ => false) 3 rfl rfl).1,
    (c3_nonretryable_short_circuit ⟨0, ⟨3, 1, 10, 2, [503]⟩, "", "svc"⟩
      (by norm_num) (fun _ => .response 404 "nf") (fun _ => false) 404 "nf" rfl rfl
      "auth" ⟨3, 1, 10, 2, [14]⟩ (by norm_num)
      (fun _ => some 3) (fun _ => false) 3 rfl rfl).2⟩

/-- If attempts up to `n` fail retryably, the context is alive through the
wait before each of them but fires during the wait before attempt `n + 1`,
the gRPC retry loop stops in that wait: it returns the context error and
performs no attempt past `n`. -/
theorem grpc_retryLoop_ctx (serviceName : String) (cfg : Grpcclient.RetryConfig)
    (invoker : Nat → Option Nat) (ctxDone : Nat → Bool) (n : Nat)
    (hfail : ∀ i, i ≤ n → ∃ cd, invoker i = some cd ∧
      Grpcclient.shouldRetryCode cd cfg.retryableCodes = true)
    (hctx : ∀ i, i ≤ n → ctxDone i = false)
    (hfire : ctxDone (n + 1) = true) :
    ∀ (remaining attempt : Nat) (lastErr : Option Nat),
      attempt ≤ n → n + 1 < attempt + remaining →
      Grpcclient.retryLoop serviceName cfg invoker ctxDone attempt remaining lastErr
        = (.ctxErr, n + 1 - attempt) := by
  intro remaining
  induction remaining with
  | zero => intro attempt lastErr ha hb; omega
  | succ m ih =>
    intro attempt lastErr ha hb
    obtain ⟨cd, hc, hr⟩ := hfail attempt ha
    have hguard : (decide (attempt > 0) && ctxDone attempt) = false := by
      rw [hctx attempt ha, Bool.and_false]
    rcases Nat.lt_or_ge attempt n with hlt | hge
    · have h2 : n + 1 < attempt + 1 + m := by omega
      rw [grpc_retryLoop_succ, hguard, hc]
      simp only [Bool.false_eq_true, if_false, hr, if_true,
        ih (attempt + 1) (some cd) hlt h2]
      simp only [Prod.mk.injEq, true_and]
      omega
    · have heq : attempt = n := le_antisymm ha hge
      subst heq
      obtain ⟨m2, rfl⟩ : ∃ m2, m = m2 + 1 := ⟨m - 1, by omega⟩
      have hguard2 : (decide (attempt + 1 > 0) && ctxDone (attempt + 1)) = true := by
        rw [hfire]
        simp
      rw [grpc_retryLoop_succ, hguard, hc]
      simp only [Bool.false_eq_true, if_false, hr, if_true, grpc_retryLoop_succ,
        hguard2]
      simp only [Prod.mk.injEq, true_and]
      omega

/-- HTTP analogue of `grpc_retryLoop_ctx`. -/
theorem http_doLoop_ctx (serviceName : String) (cfg : Httpclient.RetryConfig)
    (attemptFn : Nat → Httpclient.AttemptResult) (ctxDone : Nat → Bool) (n : Nat)
    (hfail : ∀ i, i ≤ n → attemptIsRetryableFailure cfg (attemptFn i) = true)
    (hctx : ∀ i, i ≤ n → ctxDone i = false)
    (hfire : ctxDone (n + 1) = true) :
    ∀ (remaining attempt : Nat) (lastErr : Option Httpclient.LastErr),
      attempt ≤ n → n + 1 < attempt + remaining →
      Httpclient.doLoop serviceName cfg attemptFn ctxDone attempt remaining lastErr
        = (.error .ctxErr, n + 1 - attempt) := by
  intro remaining
  induction remaining with
  | zero => intro attempt lastErr ha hb; omega
  | succ m ih =>
    intro attempt lastErr ha hb
    have hguard : (decide (attempt > 0) && ctxDone attempt) = false := by
      rw [hctx attempt ha, Bool.and_false]
    have harith : n + 1 - (attempt + 1) + 1 = n + 1 - attempt := by omega
    rcases Nat.lt_or_ge attempt n with hlt | hge
    · have h2 : n + 1 < attempt + 1 + m := by omega
      cases hc : attemptFn attempt with
      | response st body =>
        have h := hfail attempt ha
        rw [hc] at h
        simp only [attemptIsRetryableFailure] at h
        rw [http_doLoop_succ, hguard, hc]
        simp only [Bool.false_eq_true, if_false, h, if_true,
          ih (attempt + 1) (some (.httpStatus st body)) hlt h2]
        simp only [Prod.mk.injEq, true_and]
        omega
      | transportErr mg =>
        rw [http_doLoop_succ, hguard, hc]
        simp only [Bool.false_eq_true, if_false,
          ih (attempt + 1) (some (.transport mg)) hlt h2]
        simp only [Prod.mk.injEq, true_and]
        omega
    · have heq : attempt = n := le_antisymm ha hge
      subst heq
      obtain ⟨m2, rfl⟩ : ∃ m2, m = m2 + 1 := ⟨m - 1, by omega⟩
      have hguard2 : (decide (attempt + 1 > 0) && ctxDone (attempt + 1)) = true := by
        rw [hfire]
        simp
      cases hc : attemptFn attempt with
      | response st body =>
        have h := hfail attempt ha
        rw [hc] at h
        simp only [attemptIsRetryableFailure] at h
        rw [http_doLoop_succ, hguard, hc]
        simp only [Bool.false_eq_true, if_false, h, if_true, http_doLoop_succ,
          hguard2]
        simp only [Prod.mk.injEq, true_and]
        omega
      | transportErr mg =>
        rw [http_doLoop_succ, hguard, hc]
        simp only [Bool.false_eq_true, if_false, http_doLoop_succ, hguard2,
          if_true]
        simp only [Prod.mk.injEq, true_and]
        omega

/-- C5: if the external context fires while either engine waits between
attempt `n` and attempt `n + 1` (the wait still being within the retry
budget, every earlier attempt having failed retryably), the engine returns
the context's cancellation error — not the exhaustion error — having
performed exactly the `n + 1` attempts before the wait and none after. -/
theorem c5_cancellation_during_wait (n : Nat)
    (c : Httpclient.Client) (hnH : (n : Int) + 1 ≤ c.retryConfig.maxRetries)
    (attemptFn : Nat → Httpclient.AttemptResult) (ctxDoneH : Nat → Bool)
    (hfailH : ∀ i, i ≤ n → attemptIsRetryableFailure c.retryConfig (attemptFn i) = true)
    (hctxH : ∀ i, i ≤ n → ctxDoneH i = false)
    (hfireH : ctxDoneH (n + 1) = true)
    (serviceNameG : String) (cfgG : Grpcclient.RetryConfig)
    (hnG : (n : Int) + 1 ≤ cfgG.maxRetries)
    (invoker : Nat → Option Nat) (ctxDoneG : Nat → Bool)
    (hfailG : ∀ i, i ≤ n → ∃ cd, invoker i = some cd ∧
      Grpcclient.shouldRetryCode cd cfgG.retryableCodes = true)
    (hctxG : ∀ i, i ≤ n → ctxDoneG i = false)
    (hfireG : ctxDoneG (n + 1) = true) :
    Httpclient.ClientDo c attemptFn ctxDoneH = (.error .ctxErr, n + 1)
    ∧ Grpcclient.retryInterceptor serviceNameG cfgG invoker ctxDoneG
      = (.ctxErr, n + 1) := by
  constructor
  · rw [Httpclient.ClientDo]
    have hb : n + 1 < 0 + (c.retryConfig.maxRetries + 1).toNat := by omega
    have h := http_doLoop_ctx c.serviceName c.retryConfig attemptFn ctxDoneH n
      hfailH hctxH hfireH ((c.retryConfig.maxRetries + 1).toNat) 0 none
      (by omega) hb
    simpa using h
  · rw [Grpcclient.retryInterceptor]
    have hb : n + 1 < 0 + (cfgG.maxRetries + 1).toNat := by omega
    have h := grpc_retryLoop_ctx serviceNameG cfgG invoker ctxDoneG n
      hfailG hctxG hfireG ((cfgG.maxRetries + 1).toNat) 0 none
      (by omega) hb
    simpa using h

/-- Witness for C5: `n = 0`, `maxRetries = 1`, first attempt fails retryably,
the context fires during the wait before attempt 1. -/
theorem c5_cancellation_during_wait_witness :
    (((0 : Nat) : Int) + 1 ≤ (1 : Int)
      ∧ (fun i => decide (i = 1)) (0 + 1) = true)
    ∧ Httpclient.ClientDo ⟨0, ⟨1, 1, 10, 2, [503]⟩, "", "svc"⟩
        (fun _ => .response 503 "x") (fun i => decide (i = 1))
      = (.error .ctxErr, 0 + 1)
    ∧ Grpcclient.retryInterceptor "auth" ⟨1, 1, 10, 2, [14]⟩
        (fun _ => some 14) (fun i => decide (i = 1))
      = (.ctxErr, 0 + 1) :=
  ⟨⟨by norm_num, by decide⟩,
    (c5_cancellation_during_wait 0 ⟨0, ⟨1, 1, 10, 2, [503]⟩, "", "svc"⟩
      (by norm_num) (fun _ => .response 503 "x") (fun i => decide (i = 1))
      (fun _ _ => rfl) (fun i hi => by interval_cases i; rfl) rfl
      "auth" ⟨1, 1, 10, 2, [14]⟩ (by norm_num)
      (fun _ => some 14) (fun i => decide (i = 1))
      (fun _ _ => ⟨14, rfl, rfl⟩) (fun i hi => by interval_cases i; rfl) rfl).1,
    (c5_cancellation_during_wait 0 ⟨0, ⟨1, 1, 10, 2, [503]⟩, "", "svc"⟩
      (by norm_num) (fun _ => .response 503 "x") (fun i => decide (i = 1))
      (fun _ _ => rfl) (fun i hi => by interval_cases i; rfl) rfl
      "auth" ⟨1, 1, 10, 2, [14]⟩ (by norm_num)
      (fun _ => some 14) (fun i => decide (i = 1))
      (fun _ _ => ⟨14, rfl, rfl⟩) (fun i hi => by interval_cases i; rfl) rfl).2⟩

/-- Looking up the key just inserted at the head of an association list. -/
theorem lookupA_cons_self {κ β : Type} [DecidableEq κ] (k : κ) (v : β)
    (l : List (κ × β)) : lookupA ((k, v) :: l) k = some v := by
  simp [lookupA]

/-- A `set` followed by a `get` on the middleware token cache: the value is
returned up to (and including) the stored expiry and absent strictly after
it, whether or not the inline cleanup ran. -/
theorem tv_get_set (c : Middleware.TokenValidationCache) (t0 t : Int)
    (token : List Char) (r : Middleware.TokenValidationResult) (ttl : Int)
    (httl : 0 < ttl) :
    (c.set t0 token r ttl).get t token
      = if t > t0 + ttl then none else some r := by
  rw [Middleware.TokenValidationCache.set]
  split
  · simp only [Middleware.TokenValidationCache.cleanup,
      Middleware.TokenValidationCache.get, insertA]
    rw [List.filter_cons_of_pos (by simp; omega)]
    rw [lookupA_cons_self]
  · simp only [Middleware.TokenValidationCache.get, insertA]
    rw [lookupA_cons_self]

/-- Same statement for the gRPC token cache. -/
theorem grpc_get_set (c : GrpcAuth.GrpcTokenCache) (t0 t : Int)
    (token : List Char) (r : GrpcAuth.TokenValidationResult) (ttl : Int)
    (httl : 0 < ttl) :
    (c.set t0 token r ttl).get t token
      = if t > t0 + ttl then none else some r := by
  rw [GrpcAuth.GrpcTokenCache.set]
  split
  · simp only [GrpcAuth.GrpcTokenCache.cleanup, GrpcAuth.GrpcTokenCache.get,
      insertA]
    rw [List.filter_cons_of_pos (by simp; omega)]
    rw [lookupA_cons_self]
  · simp only [GrpcAuth.GrpcTokenCache.get, insertA]
    rw [lookupA_cons_self]

/-- A `Set` followed by a `Get` on the generic memory cache: the value up to
the expiry, `ErrKeyExpired` strictly after it. -/
theorem mem_get_set (c : Cache.MemoryCache) (t0 t : Int) (key v : String)
    (ttl : Int) (httl : 0 < ttl) :
    (c.Set t0 key v ttl).Get t key
      = if t > t0 + ttl then .error .keyExpired else .ok v := by
  have h0 : ¬ ttl = 0 := by omega
  simp only [Cache.MemoryCache.Set, if_neg h0, if_pos httl]
  simp only [Cache.MemoryCache.Get, Cache.buildKey, insertA]
  rw [lookupA_cons_self]

/-- C6: a `set(key, v, ttl)` at `t0` followed by a `get(key)` strictly before
`t0 + ttl` returns `v`, and the same `get` strictly after `t0 + ttl` returns
absent (`ErrKeyExpired` / `nil`), with no sweep in between — the expiry check
happens at read time in the generic memory cache and in the token validation
cache. -/
theorem c6_cache_ttl (c : Cache.MemoryCache) (key v : String)
    (tc : Middleware.TokenValidationCache) (token : List Char)
    (r : Middleware.TokenValidationResult)
    (ttl t0 t1 t2 : Int) (httl : 0 < ttl)
    (hbefore : t1 < t0 + ttl) (hafter : t0 + ttl < t2) :
    (c.Set t0 key v ttl).Get t1 key = .ok v
    ∧ (c.Set t0 key v ttl).Get t2 key = .error .keyExpired
    ∧ (tc.set t0 token r ttl).get t1 token = some r
    ∧ (tc.set t0 token r ttl).get t2 token = none := by
  refine ⟨?_, ?_, ?_, ?_⟩
  · rw [mem_get_set c t0 t1 key v ttl httl, if_neg (by omega)]
  · rw [mem_get_set c t0 t2 key v ttl httl, if_pos (by omega)]
  · rw [tv_get_set tc t0 t1 token r ttl httl, if_neg (by omega)]
  · rw [tv_get_set tc t0 t2 token r ttl httl, if_pos (by omega)]

/-- Witness for C6: empty caches, `ttl = 10`, set at 0, reads at 5 and 11. -/
theorem c6_cache_ttl_witness :
    ((0 : Int) < 10 ∧ (5 : Int) < 0 + 10 ∧ (0 : Int) + 10 < 11)
    ∧ ((Cache.MemoryCache.mk [] Cache.DefaultOptions).Set 0 "k" "v" 10).Get 5 "k"
        = .ok "v"
    ∧ ((Cache.MemoryCache.mk [] Cache.DefaultOptions).Set 0 "k" "v" 10).Get 11 "k"
        = .error .keyExpired
    ∧ ((Middleware.TokenValidationCache.mk []).set 0 "tok".toList
          ⟨true, "c", "s", "t", "u", [], 99⟩ 10).get 5 "tok".toList
        = some ⟨true, "c", "s", "t", "u", [], 99⟩
    ∧ ((Middleware.TokenValidationCache.mk []).set 0 "tok".toList
          ⟨true, "c", "s", "t", "u", [], 99⟩ 10).get 11 "tok".toList
        = none :=
  ⟨⟨by norm_num, by norm_num, by norm_num⟩,
    (c6_cache_ttl ⟨[], Cache.DefaultOptions⟩ "k" "v" ⟨[]⟩ "tok".toList
      ⟨true, "c", "s", "t", "u", [], 99⟩ 10 0 5 11 (by norm_num) (by norm_num)
      (by norm_num)).1,
    (c6_cache_ttl ⟨[], Cache.DefaultOptions⟩ "k" "v" ⟨[]⟩ "tok".toList
      ⟨true, "c", "s", "t", "u", [], 99⟩ 10 0 5 11 (by norm_num) (by norm_num)
      (by norm_num)).2.1,
    (c6_cache_ttl ⟨[], Cache.DefaultOptions⟩ "k" "v" ⟨[]⟩ "tok".toList
      ⟨true, "c", "s", "t", "u", [], 99⟩ 10 0 5 11 (by norm_num) (by norm_num)
      (by norm_num)).2.2.1,
    (c6_cache_ttl ⟨[], Cache.DefaultOptions⟩ "k" "v" ⟨[]⟩ "tok".toList
      ⟨true, "c", "s", "t", "u", [], 99⟩ 10 0 5 11 (by norm_num) (by norm_num)
      (by norm_num)).2.2.2⟩

/-- C1 is violated by the code: `GetLimiter` releases the mutex between its
missed lookup and the `AddIP` call (ip_limiter.go line 140), and `AddIP`
unconditionally allocates a fresh `rate.NewLimiter` and overwrites the map
entry.  In the permitted interleaving A-lookup-miss, B-lookup-miss, A-AddIP,
B-AddIP on a never-before-seen key, caller A observes bucket 0 while caller B
observes bucket 1: two independent buckets were created for one key (two
allocations, final counter 2), A's bucket is no longer the one in the map,
and the two callers do not share an instance — contradicting the claim that
every concurrent first-time caller observes the same bucket. -/
theorem c1_limiter_race_two_buckets :
    Limiter.raceTwoGetLimiter "198.51.100.7" 0
      = some (0, 1, ⟨[("198.51.100.7", ⟨1, 0⟩)], 2⟩)
    ∧ (0 : Nat) ≠ 1 := by
  exact ⟨rfl, by decide⟩

/-- `"Bearer "` is a prefix of `"Bearer " ++ t`. -/
theorem bearerPrefix_isPrefixOf_append (t : List Char) :
    Middleware.bearerPrefix.isPrefixOf (Middleware.bearerPrefix ++ t) = true := by
  rw [List.isPrefixOf_iff_prefix]
  exact List.prefix_append _ _

/-- Dropping 7 bytes from `"Bearer " ++ t` yields `t`. -/
theorem drop7_append (t : List Char) :
    (Middleware.bearerPrefix ++ t).drop 7 = t := by
  have h : (7 : Nat) = Middleware.bearerPrefix.length := rfl
  rw [h, List.drop_left]

/-- A header of the form `"Bearer " ++ t` is not the empty header. -/
theorem bearer_append_beq_nil (t : List Char) :
    ((Middleware.bearerPrefix ++ t) == ([] : List Char)) = false := by
  rw [beq_eq_false_iff_ne]
  intro hnil
  have h := List.append_eq_nil.mp hnil
  exact absurd h.1 (by decide)

/-- The stripped token differs from the full `"Bearer " ++ t` header (so the
gRPC `token == authHeader[0]` malformed-prefix test does not fire). -/
theorem t_beq_bearer_append (t : List Char) :
    (t == Middleware.bearerPrefix ++ t) = false := by
  rw [beq_eq_false_iff_ne]
  intro heq
  have hlen : t.length = (Middleware.bearerPrefix ++ t).length := by rw [← heq]
  rw [List.length_append] at hlen
  have h7 : Middleware.bearerPrefix.length = 7 := rfl
  omega

/-- `strings.TrimPrefix` on a header that carries the prefix strips it. -/
theorem trimPrefix_bearer_append (t : List Char) :
    GrpcAuth.trimPrefix (Middleware.bearerPrefix ++ t) Middleware.bearerPrefix
      = t := by
  rw [GrpcAuth.trimPrefix, if_pos]
  · exact List.drop_left _ _
  · rw [List.isPrefixOf_iff_prefix]
    exact List.prefix_append _ _

/-- The HTTP token pipeline calls the remote validator, if at all, only with
the token it was given. -/
theorem authWithToken_remote (cfg : Middleware.RemoteServiceAuthConfig)
    (cache : Middleware.TokenValidationCache) (now : Int) (token : List Char) :
    (Middleware.authWithToken cfg cache now token).remoteCalledWith = none
    ∨ (Middleware.authWithToken cfg cache now token).remoteCalledWith
        = some token := by
  cases hg : Middleware.TokenValidationCache.get cache now token with
  | some cached =>
    left
    simp only [Middleware.authWithToken, hg]
    split <;> rfl
  | none =>
    cases hv : cfg.tokenValidator token with
    | error e =>
      right
      simp [Middleware.authWithToken, hg, hv]
    | ok validation =>
      right
      simp only [Middleware.authWithToken, hg, hv]
      cases hval : validation.valid
      · simp [hval]
      · simp only [hval, Bool.not_true, Bool.false_eq_true, if_false]
        split <;> rfl

/-- The gRPC token pipeline calls the remote validator, if at all, only with
the token it was given. -/
theorem validateWithToken_remote (cfg : GrpcAuth.AuthInterceptorConfig)
    (cache : GrpcAuth.GrpcTokenCache) (now : Int) (token : List Char) :
    (GrpcAuth.validateWithToken cfg cache now token).remoteCalledWith = none
    ∨ (GrpcAuth.validateWithToken cfg cache now token).remoteCalledWith
        = some token := by
  cases hg : GrpcAuth.GrpcTokenCache.get cache now token with
  | some cached =>
    left
    simp [GrpcAuth.validateWithToken, hg]
  | none =>
    cases hv : cfg.tokenValidator token with
    | error e =>
      right
      simp [GrpcAuth.validateWithToken, hg, hv]
    | ok validation =>
      right
      cases hval : validation.valid <;>
        simp [GrpcAuth.validateWithToken, hg, hv, hval]

/-- C7: in both token validation paths, an absent authorization header or one
without the `"Bearer "` prefix is rejected immediately as an authentication
failure with the remote validator never called and the cache untouched; a
header `"Bearer " ++ t` is stripped to `t` before the cache lookup and the
remote validation (the whole pipeline runs on `t`, and any remote call it
makes passes exactly `t`). -/
theorem c7_bearer_prefix_required
    (cfg : Middleware.RemoteServiceAuthConfig)
    (cache : Middleware.TokenValidationCache) (now : Int) (path h : List Char)
    (henabled : cfg.enabled = true)
    (hskip : cfg.skipPaths.any (fun p => p.isPrefixOf path) = false)
    (gcfg : GrpcAuth.AuthInterceptorConfig) (gcache : GrpcAuth.GrpcTokenCache)
    (gh : List Char) (rest : List (List Char)) :
    (Middleware.bearerPrefix.isPrefixOf h = false →
      Middleware.RemoteServiceAuthMiddleware cfg cache now path h
        = ⟨.unauthorized "Missing or invalid authorization header", cache, none⟩)
    ∧ (∀ t, h = Middleware.bearerPrefix ++ t →
      Middleware.RemoteServiceAuthMiddleware cfg cache now path h
        = Middleware.authWithToken cfg cache now t
      ∧ ((Middleware.RemoteServiceAuthMiddleware cfg cache now path h).remoteCalledWith
            = none
        ∨ (Middleware.RemoteServiceAuthMiddleware cfg cache now path h).remoteCalledWith
            = some t))
    ∧ GrpcAuth.validateGRPCToken gcfg gcache now none
        = ⟨.unauthenticated "missing metadata", gcache, none⟩
    ∧ GrpcAuth.validateGRPCToken gcfg gcache now (some [])
        = ⟨.unauthenticated "missing authorization header", gcache, none⟩
    ∧ (Middleware.bearerPrefix.isPrefixOf gh = false →
      GrpcAuth.validateGRPCToken gcfg gcache now (some (gh :: rest))
        = ⟨.unauthenticated "invalid authorization format", gcache, none⟩)
    ∧ (∀ t, gh = Middleware.bearerPrefix ++ t →
      GrpcAuth.validateGRPCToken gcfg gcache now (some (gh :: rest))
        = GrpcAuth.validateWithToken gcfg gcache now t
      ∧ ((GrpcAuth.validateGRPCToken gcfg gcache now (some (gh :: rest))).remoteCalledWith
            = none
        ∨ (GrpcAuth.validateGRPCToken gcfg gcache now (some (gh :: rest))).remoteCalledWith
            = some t)) := by
  refine ⟨?_, ?_, rfl, rfl, ?_, ?_⟩
  · intro hpre
    rw [Middleware.RemoteServiceAuthMiddleware]
    simp [henabled, hskip, hpre]
  · intro t ht
    subst ht
    have heq : Middleware.RemoteServiceAuthMiddleware cfg cache now path
        (Middleware.bearerPrefix ++ t) = Middleware.authWithToken cfg cache now t := by
      rw [Middleware.RemoteServiceAuthMiddleware]
      simp [henabled, hskip, bearerPrefix_isPrefixOf_append, bearer_append_beq_nil,
        drop7_append]
      intro habs habs2
      exact absurd habs (by decide)
    exact ⟨heq, heq ▸ authWithToken_remote cfg cache now t⟩
  · intro hpre
    rw [GrpcAuth.validateGRPCToken]
    have htok : GrpcAuth.trimPrefix gh Middleware.bearerPrefix = gh := by
      rw [GrpcAuth.trimPrefix, if_neg]
      simp [hpre]
    simp [htok]
  · intro t ht
    subst ht
    have heq : GrpcAuth.validateGRPCToken gcfg gcache now
        (some ((Middleware.bearerPrefix ++ t) :: rest))
        = GrpcAuth.validateWithToken gcfg gcache now t := by
      rw [GrpcAuth.validateGRPCToken]
      simp [trimPrefix_bearer_append, t_beq_bearer_append]
    exact ⟨heq, heq ▸ validateWithToken_remote gcfg gcache now t⟩

/-- Witness for C7: concrete non-prefixed and prefixed headers against empty
caches and a one-route config. -/
theorem c7_bearer_prefix_required_witness :
    ((Middleware.RemoteServiceAuthConfig.mk (fun _ => .error "down") 0 [] [] true).enabled = true
      ∧ ([] : List (List Char)).any
          (fun p => p.isPrefixOf "/v1/send".toList) = false)
    ∧ (Middleware.bearerPrefix.isPrefixOf "Basic xyz".toList = false →
      Middleware.RemoteServiceAuthMiddleware
          ⟨fun _ => .error "down", 0, [], [], true⟩ ⟨[]⟩ 0
          "/v1/send".toList "Basic xyz".toList
        = ⟨.unauthorized "Missing or invalid authorization header", ⟨[]⟩, none⟩)
    ∧ (∀ t, "Basic xyz".toList = Middleware.bearerPrefix ++ t →
      Middleware.RemoteServiceAuthMiddleware
          ⟨fun _ => .error "down", 0, [], [], true⟩ ⟨[]⟩ 0
          "/v1/send".toList "Basic xyz".toList
        = Middleware.authWithToken ⟨fun _ => .error "down", 0, [], [], true⟩ ⟨[]⟩ 0 t
      ∧ ((Middleware.RemoteServiceAuthMiddleware
            ⟨fun _ => .error "down", 0, [], [], true⟩ ⟨[]⟩ 0
            "/v1/send".toList "Basic xyz".toList).remoteCalledWith = none
        ∨ (Middleware.RemoteServiceAuthMiddleware
            ⟨fun _ => .error "down", 0, [], [], true⟩ ⟨[]⟩ 0
            "/v1/send".toList "Basic xyz".toList).remoteCalledWith = some t))
    ∧ GrpcAuth.validateGRPCToken ⟨fun _ => .error "down", 0⟩ ⟨[]⟩ 0 none
        = ⟨.unauthenticated "missing metadata", ⟨[]⟩, none⟩
    ∧ GrpcAuth.validateGRPCToken ⟨fun _ => .error "down", 0⟩ ⟨[]⟩ 0 (some [])
        = ⟨.unauthenticated "missing authorization header", ⟨[]⟩, none⟩
    ∧ (Middleware.bearerPrefix.isPrefixOf "Basic xyz".toList = false →
      GrpcAuth.validateGRPCToken ⟨fun _ => .error "down", 0⟩ ⟨[]⟩ 0
          (some ["Basic xyz".toList])
        = ⟨.unauthenticated "invalid authorization format", ⟨[]⟩, none⟩)
    ∧ (∀ t, "Basic xyz".toList = Middleware.bearerPrefix ++ t →
      GrpcAuth.validateGRPCToken ⟨fun _ => .error "down", 0⟩ ⟨[]⟩ 0
          (some ["Basic xyz".toList])
        = GrpcAuth.validateWithToken ⟨fun _ => .error "down", 0⟩ ⟨[]⟩ 0 t
      ∧ ((GrpcAuth.validateGRPCToken ⟨fun _ => .error "down", 0⟩ ⟨[]⟩ 0
            (some ["Basic xyz".toList])).remoteCalledWith = none
        ∨ (GrpcAuth.validateGRPCToken ⟨fun _ => .error "down", 0⟩ ⟨[]⟩ 0
            (some ["Basic xyz".toList])).remoteCalledWith = some t)) :=
  ⟨⟨rfl, rfl⟩,
    c7_bearer_prefix_required ⟨fun _ => .error "down", 0, [], [], true⟩ ⟨[]⟩ 0
      "/v1/send".toList "Basic xyz".toList rfl rfl
      ⟨fun _ => .error "down", 0⟩ ⟨[]⟩ "Basic xyz".toList [] ⟩

/-- C9: in both token validation paths, on a cache miss the cache is written
only on the branch where the remote validator returned without error and
reported the token valid: a remote-validation error or a not-valid result
leads to an authentication rejection with the cache left untouched, and any
call that did change the cache must have seen a successful, valid remote
validation. -/
theorem c9_no_negative_caching
    (cfg : Middleware.RemoteServiceAuthConfig)
    (cache : Middleware.TokenValidationCache) (now : Int) (token : List Char)
    (hmiss : cache.get now token = none)
    (gcfg : GrpcAuth.AuthInterceptorConfig) (gcache : GrpcAuth.GrpcTokenCache)
    (gtoken : List Char) (hgmiss : gcache.get now gtoken = none) :
    (∀ e, cfg.tokenValidator token = .error e →
      Middleware.authWithToken cfg cache now token
        = ⟨.unauthorized "Invalid service token", cache, some token⟩)
    ∧ (∀ r, cfg.tokenValidator token = .ok r → r.valid = false →
      Middleware.authWithToken cfg cache now token
        = ⟨.unauthorized "Token is not valid", cache, some token⟩)
    ∧ ((Middleware.authWithToken cfg cache now token).cache ≠ cache →
      ∃ r, cfg.tokenValidator token = .ok r ∧ r.valid = true)
    ∧ (∀ e, gcfg.tokenValidator gtoken = .error e →
      GrpcAuth.validateWithToken gcfg gcache now gtoken
        = ⟨.unauthenticated "token validation failed", gcache, some gtoken⟩)
    ∧ (∀ r, gcfg.tokenValidator gtoken = .ok r → r.valid = false →
      GrpcAuth.validateWithToken gcfg gcache now gtoken
        = ⟨.unauthenticated "invalid token", gcache, some gtoken⟩)
    ∧ ((GrpcAuth.validateWithToken gcfg gcache now gtoken).cache ≠ gcache →
      ∃ r, gcfg.tokenValidator gtoken = .ok r ∧ r.valid = true) := by
  refine ⟨?_, ?_, ?_, ?_, ?_, ?_⟩
  · intro e he
    simp [Middleware.authWithToken, hmiss, he]
  · intro r hr hv
    simp [Middleware.authWithToken, hmiss, hr, hv]
  · intro hne
    cases hv : cfg.tokenValidator token with
    | error e =>
      simp [Middleware.authWithToken, hmiss, hv] at hne
    | ok r =>
      cases hval : r.valid
      · simp [Middleware.authWithToken, hmiss, hv, hval] at hne
      · exact ⟨r, rfl, hval⟩
  · intro e he
    simp [GrpcAuth.validateWithToken, hgmiss, he]
  · intro r hr hv
    simp [GrpcAuth.validateWithToken, hgmiss, hr, hv]
  · intro hne
    cases hv : gcfg.tokenValidator gtoken with
    | error e =>
      simp [GrpcAuth.validateWithToken, hgmiss, hv] at hne
    | ok r =>
      cases hval : r.valid
      · simp [GrpcAuth.validateWithToken, hgmiss, hv, hval] at hne
      · exact ⟨r, rfl, hval⟩

/-- Witness for C9: empty caches (miss by construction) and a validator that
always errors. -/
theorem c9_no_negative_caching_witness :
    ((Middleware.TokenValidationCache.mk []).get 0 "tok".toList = none
      ∧ (GrpcAuth.GrpcTokenCache.mk []).get 0 "tok".toList = none)
    ∧ ((∀ e, (fun _ : List Char =>
          (.error "down" : Except String Middleware.TokenValidationResult)) "tok".toList = .error e →
      Middleware.authWithToken ⟨fun _ => .error "down", 0, [], [], true⟩ ⟨[]⟩ 0 "tok".toList
        = ⟨.unauthorized "Invalid service token", ⟨[]⟩, some "tok".toList⟩)
    ∧ (∀ r, (fun _ : List Char =>
          (.error "down" : Except String Middleware.TokenValidationResult)) "tok".toList = .ok r → r.valid = false →
      Middleware.authWithToken ⟨fun _ => .error "down", 0, [], [], true⟩ ⟨[]⟩ 0 "tok".toList
        = ⟨.unauthorized "Token is not valid", ⟨[]⟩, some "tok".toList⟩)
    ∧ ((Middleware.authWithToken ⟨fun _ => .error "down", 0, [], [], true⟩ ⟨[]⟩ 0 "tok".toList).cache ≠ ⟨[]⟩ →
      ∃ r, (fun _ : List Char =>
          (.error "down" : Except String Middleware.TokenValidationResult)) "tok".toList = .ok r ∧ r.valid = true)
    ∧ (∀ e, (fun _ : List Char =>
          (.error "down" : Except String GrpcAuth.TokenValidationResult)) "tok".toList = .error e →
      GrpcAuth.validateWithToken ⟨fun _ => .error "down", 0⟩ ⟨[]⟩ 0 "tok".toList
        = ⟨.unauthenticated "token validation failed", ⟨[]⟩, some "tok".toList⟩)
    ∧ (∀ r, (fun _ : List Char =>
          (.error "down" : Except String GrpcAuth.TokenValidationResult)) "tok".toList = .ok r → r.valid = false →
      GrpcAuth.validateWithToken ⟨fun _ => .error "down", 0⟩ ⟨[]⟩ 0 "tok".toList
        = ⟨.unauthenticated "invalid token", ⟨[]⟩, some "tok".toList⟩)
    ∧ ((GrpcAuth.validateWithToken ⟨fun _ => .error "down", 0⟩ ⟨[]⟩ 0 "tok".toList).cache ≠ ⟨[]⟩ →
      ∃ r, (fun _ : List Char =>
          (.error "down" : Except String GrpcAuth.TokenValidationResult)) "tok".toList = .ok r ∧ r.valid = true)) :=
  ⟨⟨rfl, rfl⟩,
    c9_no_negative_caching ⟨fun _ => .error "down", 0, [], [], true⟩ ⟨[]⟩ 0
      "tok".toList rfl ⟨fun _ => .error "down", 0⟩ ⟨[]⟩ "tok".toList rfl⟩

/-- No piece produced by `splitOnP` contains an element satisfying the split
predicate. -/
theorem splitOnP_pieces {α : Type} (p : α → Bool) :
    ∀ (xs : List α), ∀ piece ∈ xs.splitOnP p, ∀ x ∈ piece, p x = false := by
  intro xs
  induction xs with
  | nil =>
    intro piece hp x hx
    rw [List.splitOnP_nil] at hp
    simp at hp
    subst hp
    simp at hx
  | cons a tl ih =>
    intro piece hp x hx
    rw [List.splitOnP_cons] at hp
    by_cases ha : p a = true
    · rw [if_pos ha] at hp
      rcases List.mem_cons.mp hp with rfl | hmem
      · simp at hx
      · exact ih piece hmem x hx
    · rw [if_neg ha] at hp
      rcases hsp : tl.splitOnP p with _ | ⟨hd, rest⟩
      · exact absurd hsp (List.splitOnP_ne_nil _ tl)
      · rw [hsp] at hp
        simp only [List.modifyHead] at hp
        rcases List.mem_cons.mp hp with rfl | hmem
        · rcases List.mem_cons.mp hx with rfl | hx2
          · exact Bool.eq_false_iff.mpr ha
          · exact ih hd (by rw [hsp]; exact List.mem_cons_self hd rest) x hx2
        · exact ih piece (by rw [hsp]; exact List.mem_cons_of_mem hd hmem) x hx

theorem splitOn_colon_pair (required a b : List Char) :
    required.splitOn ':' = [a, b]
      ↔ required = a ++ ':' :: b ∧ ':' ∉ a ∧ ':' ∉ b := by
  constructor
  · intro hsp
    have hi : [':'].intercalate (required.splitOn ':') = required :=
      List.intercalate_splitOn required ':'
    rw [hsp] at hi
    have hreq : required = a ++ ':' :: b := by
      rw [← hi]
      simp [List.intercalate]
    have hpa : ∀ x ∈ a, (x == ':') = false := by
      intro x hx
      exact splitOnP_pieces (fun c => c == ':') required a
        (by rw [List.splitOn] at hsp; rw [hsp]; simp) x hx
    have hpb : ∀ x ∈ b, (x == ':') = false := by
      intro x hx
      exact splitOnP_pieces (fun c => c == ':') required b
        (by rw [List.splitOn] at hsp; rw [hsp]; simp) x hx
    refine ⟨hreq, ?_, ?_⟩
    · intro hmem
      have := hpa ':' hmem
      simp at this
    · intro hmem
      have := hpb ':' hmem
      simp at this
  · rintro ⟨rfl, ha, hb⟩
    have h : ([':'].intercalate [a, b]).splitOn ':' = [a, b] :=
      List.splitOn_intercalate [a, b] ':' (by simp [ha, hb]) (by simp)
    simpa [List.intercalate] using h

theorem hasScopeInList_iff (scopes : List (List Char)) (required : List Char) :
    Middleware.hasScopeInList scopes required = true
      ↔ ∃ s ∈ scopes, s = ['*'] ∨ s = required ∨
          ∃ a b, required = a ++ ':' :: b ∧ ':' ∉ a ∧ ':' ∉ b
            ∧ s = a ++ [':', '*'] := by
  rw [Middleware.hasScopeInList, List.any_eq_true]
  refine exists_congr fun s => and_congr_right fun _ => ?_
  simp only [Bool.or_eq_true, beq_iff_eq]
  constructor
  · rintro ((h1 | h2) | h3)
    · exact Or.inl h1
    · exact Or.inr (Or.inl h2)
    · refine Or.inr (Or.inr ?_)
      obtain ⟨l, hsp⟩ : ∃ l, required.splitOn ':' = l := ⟨_, rfl⟩
      rw [hsp] at h3
      cases l with
      | nil => simp at h3
      | cons a tl =>
        cases tl with
        | nil => simp at h3
        | cons b tl2 =>
          cases tl2 with
          | nil =>
            simp only [beq_iff_eq] at h3
            obtain ⟨hreq, ha, hb⟩ := (splitOn_colon_pair required a b).mp hsp
            exact ⟨a, b, hreq, ha, hb, h3⟩
          | cons cc tl3 => simp at h3
  · rintro (h1 | h2 | ⟨a, b, hreq, ha, hb, hs⟩)
    · exact Or.inl (Or.inl h1)
    · exact Or.inl (Or.inr h2)
    · refine Or.inr ?_
      have hsp : required.splitOn ':' = [a, b] :=
        (splitOn_colon_pair required a b).mpr ⟨hreq, ha, hb⟩
      rw [hsp]
      simp [hs]

/-- C8: the scope matcher (`hasScopeInList` in the HTTP middleware, the
identical `HasScope` in the gRPC package) accepts `"notifications:*"` for
required scope `"notifications:send"`; accepts a held `"*"` for every
required scope; rejects `"notifications:send"` for `"notifications:read"`;
and in general accepts exactly a universal `"*"`, an exact match, or the
resource wildcard `a ++ ":*"` when the required scope is `a ++ ":" ++ b`
with exactly one `":"` — and nothing else. -/
theorem c8_scope_matching :
    Middleware.hasScopeInList ["notifications:*".toList]
        "notifications:send".toList = true
    ∧ (∀ scopes required, "*".toList ∈ scopes →
        Middleware.hasScopeInList scopes required = true)
    ∧ Middleware.hasScopeInList ["notifications:send".toList]
        "notifications:read".toList = false
    ∧ (∀ scopes required, Middleware.hasScopeInList scopes required = true ↔
        ∃ s ∈ scopes, s = ['*'] ∨ s = required ∨
          ∃ a b, required = a ++ ':' :: b ∧ ':' ∉ a ∧ ':' ∉ b
            ∧ s = a ++ [':', '*'])
    ∧ (∀ scopes required,
        GrpcAuth.HasScope scopes required
          = Middleware.hasScopeInList scopes required) := by
  refine ⟨by decide, ?_, by decide, hasScopeInList_iff, fun _ _ => rfl⟩
  intro scopes required hmem
  rw [Middleware.hasScopeInList, List.any_eq_true]
  refine ⟨"*".toList, hmem, ?_⟩
  have h : "*".toList = ['*'] := rfl
  simp [h]

/-- C10: each client constructor, seeing `RetryConfig.MaxRetries = 0`,
discards the whole supplied retry configuration and substitutes the complete
default policy (3 retries, 500ms initial delay, 5s max delay, factor 2, the
default retryable set); consequently no constructed client has an effective
`MaxRetries` of 0, and none can be configured to make exactly one attempt
against a persistently retryable failure. -/
theorem c10_zero_maxretries_full_default
    (cfgH : Httpclient.Config) (cfgG : Grpcclient.Config)
    (hH : cfgH.retryConfig.maxRetries = 0)
    (hG : cfgG.retryConfig.maxRetries = 0) :
    (Httpclient.NewClient cfgH).retryConfig = Httpclient.DefaultRetryConfig
    ∧ (Grpcclient.NewClient cfgG).retryConfig = Grpcclient.DefaultRetryConfig
    ∧ (∀ c : Httpclient.Config,
        (Httpclient.NewClient c).retryConfig.maxRetries ≠ 0)
    ∧ (∀ c : Grpcclient.Config,
        (Grpcclient.NewClient c).retryConfig.maxRetries ≠ 0)
    ∧ (∀ (c : Httpclient.Config) (attemptFn : Nat → Httpclient.AttemptResult),
        (∀ i, attemptIsRetryableFailure (Httpclient.NewClient c).retryConfig
          (attemptFn i) = true) →
        (Httpclient.ClientDo (Httpclient.NewClient c) attemptFn
          (fun _ => false)).2 ≠ 1)
    ∧ (∀ (c : Grpcclient.Config) (invoker : Nat → Option Nat),
        (∀ i, ∃ cd, invoker i = some cd ∧ Grpcclient.shouldRetryCode cd
          (Grpcclient.NewClient c).retryConfig.retryableCodes = true) →
        (Grpcclient.retryInterceptor (Grpcclient.NewClient c).serviceName
          (Grpcclient.NewClient c).retryConfig invoker (fun _ => false)).2 ≠ 1) := by
  have hne : ∀ c : Httpclient.Config,
      (Httpclient.NewClient c).retryConfig.maxRetries ≠ 0 := by
    intro c
    by_cases h0 : c.retryConfig.maxRetries = 0
    · simp [Httpclient.NewClient, h0, Httpclient.DefaultRetryConfig]
    · simp [Httpclient.NewClient, h0]
  have hneG : ∀ c : Grpcclient.Config,
      (Grpcclient.NewClient c).retryConfig.maxRetries ≠ 0 := by
    intro c
    by_cases h0 : c.retryConfig.maxRetries = 0
    · simp [Grpcclient.NewClient, h0, Grpcclient.DefaultRetryConfig]
    · simp [Grpcclient.NewClient, h0]
  refine ⟨by simp [Httpclient.NewClient, hH], by simp [Grpcclient.NewClient, hG],
    hne, hneG, ?_, ?_⟩
  · intro c attemptFn hfail
    rcases lt_trichotomy (Httpclient.NewClient c).retryConfig.maxRetries 0 with
      hneg | hzero | hpos
    · have ht : ((Httpclient.NewClient c).retryConfig.maxRetries + 1).toNat = 0 := by
        omega
      rw [Httpclient.ClientDo, ht]
      simp [Httpclient.doLoop]
    · exact absurd hzero (hne c)
    · have ht : ((Httpclient.NewClient c).retryConfig.maxRetries + 1).toNat
          = (Httpclient.NewClient c).retryConfig.maxRetries.toNat + 1 := by omega
      rw [Httpclient.ClientDo, ht,
        http_doLoop_exhaust _ _ attemptFn hfail
          (Httpclient.NewClient c).retryConfig.maxRetries.toNat 0 none]
      simp
      omega
  · intro c invoker hfail
    rcases lt_trichotomy (Grpcclient.NewClient c).retryConfig.maxRetries 0 with
      hneg | hzero | hpos
    · have ht : ((Grpcclient.NewClient c).retryConfig.maxRetries + 1).toNat = 0 := by
        omega
      rw [Grpcclient.retryInterceptor, ht]
      simp [Grpcclient.retryLoop]
    · exact absurd hzero (hneG c)
    · have ht : ((Grpcclient.NewClient c).retryConfig.maxRetries + 1).toNat
          = (Grpcclient.NewClient c).retryConfig.maxRetries.toNat + 1 := by omega
      rw [Grpcclient.retryInterceptor, ht,
        grpc_retryLoop_exhaust _ _ invoker hfail
          (Grpcclient.NewClient c).retryConfig.maxRetries.toNat 0 none]
      simp
      omega

/-- Witness for C10: configs whose retry policy is all-zero. -/
theorem c10_zero_maxretries_full_default_witness :
    ((Httpclient.Config.mk "" "svc" 0 ⟨0, 0, 0, 0, []⟩).retryConfig.maxRetries = 0
      ∧ (Grpcclient.Config.mk "t" "svc" ⟨0, 0, 0, 0, []⟩).retryConfig.maxRetries = 0)
    ∧ (Httpclient.NewClient ⟨"", "svc", 0, ⟨0, 0, 0, 0, []⟩⟩).retryConfig
        = Httpclient.DefaultRetryConfig
    ∧ (Grpcclient.NewClient ⟨"t", "svc", ⟨0, 0, 0, 0, []⟩⟩).retryConfig
        = Grpcclient.DefaultRetryConfig :=
  ⟨⟨rfl, rfl⟩,
    (c10_zero_maxretries_full_default ⟨"", "svc", 0, ⟨0, 0, 0, 0, []⟩⟩
      ⟨"t", "svc", ⟨0, 0, 0, 0, []⟩⟩ rfl rfl).1,
    (c10_zero_maxretries_full_default ⟨"", "svc", 0, ⟨0, 0, 0, 0, []⟩⟩
      ⟨"t", "svc", ⟨0, 0, 0, 0, []⟩⟩ rfl rfl).2.1⟩
